import Mathlib

/-!
Verification of the Pauli-algebra engine (`pauli_string.py`, `pauli_operator.py`,
`kraus_operation.py`).

The three Python classes are shallowly embedded below:

* `PSData` embeds the field content of a `PauliString` (`xs`, `zs`, `ys`,
  `coeff`, `qubit_width`); `mkPauliString` embeds `PauliString.__init__`.
* Numeric coefficients are embedded as exact complex rationals (`GRat`,
  built on unnormalized fractions `Frac`): every Python `float` is a
  rational, and none of the settled claims depends on float rounding.
  Python's numeric `==` is embedded as value equality (`Frac.eqb` /
  `GRat.eqb`), not representation equality.
* Python dictionaries keyed by `PauliString` objects are embedded as
  association lists over `PSObj` (a `PSData` together with an object
  identifier `oid : Nat`).  `PauliString` defines neither `__eq__` nor
  `__hash__`, so Python compares such keys by object identity; `oid` models
  that identity.  `copy.deepcopy` of a dict creates fresh key objects, which
  is modelled by an injective-by-convention renaming `ren : Nat → Nat`
  applied to the ids; freshly allocated objects (such as the identity string
  created inside `PauliOperator.__add__`) receive an explicit id parameter.
* Raised Python exceptions are embedded as `Except PyErr` results.
-/

instance {ε α : Type} [DecidableEq ε] [DecidableEq α] : DecidableEq (Except ε α) := fun x y =>
  match x, y with
  | Except.error e, Except.error f =>
    if h : e = f then isTrue (by rw [h]) else isFalse (fun hh => by cases hh; exact h rfl)
  | Except.error _, Except.ok _ => isFalse (fun hh => by cases hh)
  | Except.ok _, Except.error _ => isFalse (fun hh => by cases hh)
  | Except.ok a, Except.ok b =>
    if h : a = b then isTrue (by rw [h]) else isFalse (fun hh => by cases hh; exact h rfl)

/-- Python exception kinds raised by the embedded code. -/
inductive PyErr where
  | valueError
  | indexError
  | assertionError
  | attributeError
  | keyError
deriving DecidableEq

/-- Exact rational `num / den` kept unnormalized (every operation is plain
integer arithmetic, so concrete computations reduce in the kernel).  Python
floats are rationals; float rounding is not modelled and no settled claim
depends on it. -/
structure Frac where
  num : Int
  den : Nat
deriving DecidableEq

def Frac.zero : Frac := ⟨0, 1⟩

def Frac.one : Frac := ⟨1, 1⟩

def Frac.mul (a b : Frac) : Frac := ⟨a.num * b.num, a.den * b.den⟩

def Frac.add (a b : Frac) : Frac := ⟨a.num * b.den + b.num * a.den, a.den * b.den⟩

def Frac.neg (a : Frac) : Frac := ⟨-a.num, a.den⟩

def Frac.sub (a b : Frac) : Frac := a.add b.neg

/-- Numeric (value) equality of rationals, Python's `==` on floats. -/
def Frac.eqb (a b : Frac) : Bool := a.num * b.den == b.num * a.den

/-- Complex number with exact rational real and imaginary parts: the
coefficient domain of the embedded code. -/
structure GRat where
  re : Frac
  im : Frac
deriving DecidableEq

def GRat.zero : GRat := ⟨Frac.zero, Frac.zero⟩

def GRat.one : GRat := ⟨Frac.one, Frac.zero⟩

def GRat.iUnit : GRat := ⟨Frac.zero, Frac.one⟩

def GRat.mul (a b : GRat) : GRat :=
  ⟨(a.re.mul b.re).sub (a.im.mul b.im), (a.re.mul b.im).add (a.im.mul b.re)⟩

def GRat.add (a b : GRat) : GRat := ⟨a.re.add b.re, a.im.add b.im⟩

def GRat.neg (a : GRat) : GRat := ⟨a.re.neg, a.im.neg⟩

/-- Complex conjugation (`np.conjugate`). -/
def GRat.conj (a : GRat) : GRat := ⟨a.re, a.im.neg⟩

/-- Numeric (value) equality, Python's `==` on complex numbers. -/
def GRat.eqb (a b : GRat) : Bool := a.re.eqb b.re && a.im.eqb b.im

def GRat.ofInt (z : Int) : GRat := ⟨⟨z, 1⟩, Frac.zero⟩

/-- Natural power of the imaginary unit. -/
def GRat.ipowNat : Nat → GRat
  | 0 => GRat.one
  | n + 1 => GRat.mul GRat.iUnit (GRat.ipowNat n)

/-- Natural power of `-i` (the reciprocal of `i`). -/
def GRat.mipowNat : Nat → GRat
  | 0 => GRat.one
  | n + 1 => GRat.mul (GRat.neg GRat.iUnit) (GRat.mipowNat n)

/-- Integer power `(1j) ** k` of `pauli_string.py` line 71: for a negative
exponent Python computes the reciprocal, and the reciprocal of `i` is `-i`. -/
def GRat.ipow : Int → GRat
  | Int.ofNat n => GRat.ipowNat n
  | Int.negSucc n => GRat.mipowNat (n + 1)

/-- Field content of a `PauliString` (`pauli_string.py` lines 34-42): qubit
index tuples for X, Z, Y, the scalar coefficient, and the qubit width.  The
memoization fields `_stabilizer_dict` and `_matrix_representation` are caches
of pure functions and are not part of the embedded state. -/
structure PSData where
  xs : List Nat
  zs : List Nat
  ys : List Nat
  coeff : GRat
  qubit_width : Nat
deriving DecidableEq

/-- Folding of the constructor arguments (`pauli_string.py` lines 29-32): when
`ys` is not supplied it becomes the intersection of `xs` and `zs`, and those
indices are removed from `xs` and `zs`.  Python's `set` iteration order is
unspecified; the intersection is modelled in `xs`-order with duplicates
removed. -/
def foldYs (xs zs : List Nat) (ys? : Option (List Nat)) : List Nat × List Nat × List Nat :=
  match ys? with
  | some ys => (xs, zs, ys)
  | none =>
    let ys := (xs.filter (fun i => i ∈ zs)).dedup
    (xs.filter (fun i => i ∉ ys), zs.filter (fun i => i ∉ ys), ys)

/-- Construct `PSData` with an explicitly supplied qubit width (the only
failure path of `PauliString.__init__` is `max` on an empty list when the
width is omitted, so this case is total). -/
def psInitW (xs zs : List Nat) (ys? : Option (List Nat)) (coeff : GRat) (w : Nat) : PSData :=
  let f := foldYs xs zs ys?
  ⟨f.1, f.2.1, f.2.2, coeff, w⟩

/-- Embeds `PauliString.__init__` (`pauli_string.py` lines 20-45).  When
`qubit_width` is omitted and no index is referenced, Python's
`max(list(xs) + list(ys) + list(zs))` raises `ValueError: max() arg is an
empty sequence`.  No other validation is performed by the constructor. -/
def mkPauliString (xs zs : List Nat) (ys? : Option (List Nat)) (coeff : GRat)
    (width? : Option Nat) : Except PyErr PSData :=
  let f := foldYs xs zs ys?
  match width? with
  | some w => Except.ok ⟨f.1, f.2.1, f.2.2, coeff, w⟩
  | none =>
    match f.1 ++ f.2.2 ++ f.2.1 with
    | [] => Except.error PyErr.valueError
    | i :: rest => Except.ok ⟨f.1, f.2.1, f.2.2, coeff, (rest.foldl Nat.max i) + 1⟩

/-- Toggle (`^= 1`) one entry of a 0/1 vector; an out-of-range index raises
`IndexError` exactly as indexing a NumPy array out of bounds does. -/
def toggleAt (l : List Nat) (i : Nat) : Except PyErr (List Nat) :=
  if h : i < l.length then Except.ok (l.set i ((l.get ⟨i, h⟩) ^^^ 1)) else Except.error PyErr.indexError

def toggleAll (l : List Nat) (idxs : List Nat) : Except PyErr (List Nat) :=
  idxs.foldlM toggleAt l

/-- Embeds `PauliString._make_stabilizer` (`pauli_string.py` lines 186-204):
a z-block followed by an x-block, each of length `n`, with the `xs` loop run
first, then `zs`, then `ys` toggling both blocks. -/
def makeStabilizer (p : PSData) (n : Nat) : Except PyErr (List Nat) := do
  let xsStab ← toggleAll (List.replicate n 0) p.xs
  let zsStab ← toggleAll (List.replicate n 0) p.zs
  let xsStab ← toggleAll xsStab p.ys
  let zsStab ← toggleAll zsStab p.ys
  pure (zsStab ++ xsStab)

/-- Embeds `PauliString.stabilizer` (`pauli_string.py` lines 171-184) for an
explicit requested width (`num_qubits = -1`, the default, corresponds to
`n = p.qubit_width`).  With `swap` the two halves are exchanged. -/
def stabilizerAt (p : PSData) (n : Nat) (swap : Bool) : Except PyErr (List Nat) :=
  if n < p.qubit_width then Except.error PyErr.valueError
  else do
    let s ← makeStabilizer p n
    pure (if swap then s.drop n ++ s.take n else s)

/-- Embeds `PauliString.from_stabilizer` (`pauli_string.py` lines 154-169):
odd length is a `ValueError`; bit `i` selects membership in `zs`, bit `n + i`
membership in `xs`; the result is built through the constructor with an
explicit width, which cannot fail. -/
def fromStabilizer (stab : List Nat) (coeff : GRat) : Except PyErr PSData :=
  if stab.length % 2 ≠ 0 then Except.error PyErr.valueError
  else
    let n := stab.length / 2
    let zs := (List.range n).filter (fun i => stab.getD i 0 ≠ 0)
    let xs := (List.range n).filter (fun i => stab.getD (n + i) 0 ≠ 0)
    Except.ok (psInitW xs zs none coeff n)

/-- Per-qubit exponent term of `pauli_string.py` line 70:
`(z1*x2 - x1*z2) * (1 - 2*z1*x1) * (1 - 2*z2*x2)`. -/
def powTerm (z1 x1 z2 x2 : Nat) : Int :=
  ((z1 : Int) * x2 - (x1 : Int) * z2) * (1 - 2 * z1 * x1) * (1 - 2 * z2 * x2)

/-- Embeds `PauliString.__mul__` (`pauli_string.py` lines 61-72): work at the
maximum width, XOR the two stabilizer vectors, and scale by
`i ^ (sum of the per-qubit exponent terms)`. -/
def psMul (a b : PSData) : Except PyErr PSData := do
  let newCoeff := GRat.mul a.coeff b.coeff
  let n := max a.qubit_width b.qubit_width
  let stab1 ← stabilizerAt a n false
  let stab2 ← stabilizerAt b n false
  let newStab := List.zipWith (fun u v => u ^^^ v) stab1 stab2
  let zx1 := (stab1.take n).zip (stab1.drop n)
  let zx2 := (stab2.take n).zip (stab2.drop n)
  let powVec := List.zipWith (fun p q => powTerm p.1 p.2 q.1 q.2) zx1 zx2
  let intCoeff := GRat.ipow powVec.sum
  fromStabilizer newStab (GRat.mul newCoeff intCoeff)

/-- Embeds `PauliString.symplectic_product` (`pauli_string.py` lines 206-213):
parity of the bitwise AND of one vector with the other vector swapped. -/
def symplecticProduct (a b : PSData) : Except PyErr Nat := do
  let n := max a.qubit_width b.qubit_width
  let stab1 ← stabilizerAt a n false
  let stab2 ← stabilizerAt b n true
  pure ((List.zipWith (fun u v => u &&& v) stab1 stab2).sum % 2)

/-- Embeds `PauliString.commutative_sign` (`pauli_string.py` lines 215-219). -/
def commutativeSign (a b : PSData) : Except PyErr Int := do
  let sp ← symplecticProduct a b
  pure ((-1 : Int) ^ sp)

/-- Embeds `PauliString.commutes` (`pauli_string.py` lines 221-225):
`bool(self.symplectic_product(other))`, i.e. `true` iff the product is
nonzero. -/
def commutes (a b : PSData) : Except PyErr Bool := do
  let sp ← symplecticProduct a b
  pure (sp != 0)

/-- Well-formedness of a string's index data: every referenced qubit index
lies below the qubit width (the constructor does not enforce this). -/
def PSData.wf (p : PSData) : Prop :=
  (∀ i ∈ p.xs, i < p.qubit_width) ∧ (∀ i ∈ p.ys, i < p.qubit_width) ∧
    (∀ i ∈ p.zs, i < p.qubit_width)

instance (p : PSData) : Decidable p.wf := by
  unfold PSData.wf; infer_instance

/-- A `PauliString` object: its field content together with its Python object
identity.  `pauli_string.py` defines neither `__eq__` nor `__hash__`, so as a
dictionary key a `PauliString` compares by object identity, i.e. by `oid`. -/
structure PSObj where
  oid : Nat
  data : PSData
deriving DecidableEq

/-- Field content of a `PauliOperator` (`pauli_operator.py` lines 10-18): the
key/value pairs of `_string_coeff_pairs` in insertion order, and `num_qubits`. -/
structure POData where
  pairs : List (PSObj × GRat)
  num_qubits : Nat
deriving DecidableEq

/-- Embeds `PauliOperator.__init__` (`pauli_operator.py` lines 10-18): assert
all key coefficients equal 1 (numerically), take the first key's width (an
`IndexError` on an empty mapping), assert all widths agree. -/
def mkPauliOperator (pairs : List (PSObj × GRat)) : Except PyErr POData :=
  if pairs.all (fun kv => GRat.eqb kv.1.data.coeff GRat.one) then
    match pairs with
    | [] => Except.error PyErr.indexError
    | kv :: rest =>
      let n := kv.1.data.qubit_width
      if (kv :: rest).all (fun p => p.1.data.qubit_width == n) then Except.ok ⟨kv :: rest, n⟩
      else Except.error PyErr.assertionError
  else Except.error PyErr.assertionError

/-- Python dict update `d[k] += v` / `d[k] = v` under the default
object-identity equality of `PauliString` keys: accumulate if some existing
key is the same object, otherwise append a new entry. -/
def dictAdd (d : List (PSObj × GRat)) (k : PSObj) (v : GRat) : List (PSObj × GRat) :=
  if d.any (fun kv => kv.1.oid == k.oid) then
    d.map (fun kv => if kv.1.oid == k.oid then (kv.1, GRat.add kv.2 v) else kv)
  else d ++ [(k, v)]

/-- Model of `copy.deepcopy` on `_string_coeff_pairs`: values are copied and
the copied keys are fresh objects, so each key receives a fresh object id via
the renaming `ren` (by convention injective with range disjoint from all live
ids). -/
def deepcopyPairs (ren : Nat → Nat) (d : List (PSObj × GRat)) : List (PSObj × GRat) :=
  d.map (fun kv => (⟨ren kv.1.oid, kv.1.data⟩, kv.2))

/-- Accessing the attribute `normalized` on a `PauliString`: the class defines
no such attribute or property anywhere in `pauli_string.py`, so the access
raises `AttributeError` (`pauli_operator.py` lines 65, 78, 94 and
`kraus_operation.py` line 24 all perform it). -/
def psNormalized (_ : PSData) : Except PyErr PSData :=
  Except.error PyErr.attributeError

/-- The right operand kinds dispatched on by `PauliOperator.__add__`. -/
inductive Operand where
  | opv (B : POData)
  | psv (p : PSObj)
  | sc (s : GRat)

/-- Embeds `PauliOperator.__add__` (`pauli_operator.py` lines 31-53).  All
three branches deepcopy the receiver's pairs (fresh key ids via `ren`).  In
the scalar branch a fresh identity string (object id `freshOid`) is built;
when it is absent from the keys the source executes
`new_string_coeff_pairs[identity_string] == other`, whose left side is a
dict subscript lookup on that absent key: it raises `KeyError` before the
`==` comparison is ever evaluated. -/
def opAdd (ren : Nat → Nat) (freshOid : Nat) (A : POData) (other : Operand) :
    Except PyErr POData :=
  match other with
  | Operand.opv B =>
    mkPauliOperator (B.pairs.foldl (fun acc kv => dictAdd acc kv.1 kv.2) (deepcopyPairs ren A.pairs))
  | Operand.psv p =>
    mkPauliOperator (dictAdd (deepcopyPairs ren A.pairs) p GRat.one)
  | Operand.sc s =>
    let idStr : PSObj := ⟨freshOid, psInitW [] [] none GRat.one A.num_qubits⟩
    let base := deepcopyPairs ren A.pairs
    if base.any (fun kv => kv.1.oid == idStr.oid) then
      mkPauliOperator (base.map (fun kv =>
        if kv.1.oid == idStr.oid then (kv.1, GRat.add kv.2 s) else kv))
    else
      Except.error PyErr.keyError

/-- Embeds the operator-times-operator branch of `PauliOperator.__mul__`
(`pauli_operator.py` lines 59-71): distribute over all key pairs; for each
pair the product string and coefficient are computed, then the undefined
attribute `normalized` is accessed (raising `AttributeError` whenever this
point is reached).  The object id of the — never actually created —
normalized key is immaterial and written `0`. -/
def opMulOp (A B : POData) : Except PyErr POData := do
  let pairs ← A.pairs.foldlM (fun acc kv1 =>
    B.pairs.foldlM (fun acc2 kv2 => do
      let newString ← psMul kv1.1.data kv2.1.data
      let newCoeff := GRat.mul (GRat.mul kv1.2 kv2.2) newString.coeff
      let newStringN ← psNormalized newString
      pure (dictAdd acc2 ⟨0, newStringN⟩ newCoeff)) acc) []
  mkPauliOperator pairs

/-- Embeds `PauliOperator.adjoint` (`pauli_operator.py` lines 122-124):
conjugate every coefficient, keep the same key objects, rebuild through the
constructor. -/
def opAdjoint (A : POData) : Except PyErr POData :=
  mkPauliOperator (A.pairs.map (fun kv => (kv.1, GRat.conj kv.2)))

/-- Field content of a `KrausOperation` (`kraus_operation.py` lines 10-17):
the operator list and the precomputed adjoint list.  The chi-matrix and
Pauli-transfer-matrix caches are initialized to `None` and are out of scope. -/
structure KOData where
  operators : List POData
  adjoint_operators : List POData
deriving DecidableEq

/-- Embeds `KrausOperation.__init__` (`kraus_operation.py` lines 10-17): no
validation whatsoever; the only computation is the adjoint of each operator. -/
def mkKrausOperation (ops : List POData) : Except PyErr KOData := do
  let adj ← ops.mapM opAdjoint
  pure ⟨ops, adj⟩

/-- Embeds `KrausOperation.is_diagonal` (`kraus_operation.py` lines 51-53). -/
def koIsDiagonal (K : KOData) : Bool :=
  K.operators.all (fun op => op.pairs.length == 1)

/-- A Python value that is either an `int` or a `PauliOperator`: the type of
the accumulator `res` in `KrausOperation.__call__`. -/
inductive PyVal where
  | int (z : Int)
  | op (P : POData)
deriving DecidableEq

/-- The `res += op * operator * op_dag` accumulation step: `int + PauliOperator`
falls back to `PauliOperator.__radd__`, i.e. the scalar branch of `__add__`;
`PauliOperator + PauliOperator` is the operator branch.  (Unreachable in the
settled claims: the preceding multiplication always raises.) -/
def pyAdd (ren : Nat → Nat) (freshOid : Nat) (res : PyVal) (X : POData) :
    Except PyErr PyVal :=
  match res with
  | PyVal.int z => do
    let r ← opAdd ren freshOid X (Operand.sc (GRat.ofInt z))
    pure (PyVal.op r)
  | PyVal.op R => do
    let r ← opAdd ren freshOid R (Operand.opv X)
    pure (PyVal.op r)

/-- The argument kinds accepted by `KrausOperation.__call__`. -/
inductive CallInput where
  | ps (p : PSObj)
  | po (P : POData)

/-- Embeds `KrausOperation.__call__` (`kraus_operation.py` lines 22-29).  A
`PauliString` argument is first wrapped via `operator.normalized`, an access
to an undefined attribute, which raises `AttributeError`.  Otherwise `res`
starts as the `int` `0` and accumulates `op * operator * op_dag` over the
zipped operator/adjoint lists. -/
def koCall (ren : Nat → Nat) (freshOid : Nat) (K : KOData) (input : CallInput) :
    Except PyErr PyVal :=
  match input with
  | CallInput.ps _ => Except.error PyErr.attributeError
  | CallInput.po ρ =>
    (K.operators.zip K.adjoint_operators).foldlM
      (fun res opPair => do
        let prod1 ← opMulOp opPair.1 ρ
        let prod2 ← opMulOp prod1 opPair.2
        pyAdd ren freshOid res prod2)
      (PyVal.int 0)

/-- Decimal digit characters. -/
def digitChar (d : Nat) : Char :=
  ['0', '1', '2', '3', '4', '5', '6', '7', '8', '9'].getD d '0'

/-- Fuel-indexed decimal rendering accumulator (the fuel `n + 1` always
suffices for rendering `n`). -/
def natCharsCore : Nat → Nat → List Char → List Char
  | 0, _, acc => acc
  | fuel + 1, n, acc =>
    if n < 10 then digitChar n :: acc
    else natCharsCore fuel (n / 10) (digitChar (n % 10) :: acc)

/-- Decimal rendering of a natural number, the embedding of Python's
`f"{i}"` on a qubit index. -/
def natChars (n : Nat) : List Char := natCharsCore (n + 1) n []

def intChars (z : Int) : List Char :=
  if z < 0 then '-' :: natChars z.natAbs else natChars z.natAbs

/-- Exact rendering of a rational (integer form when integral).  This stands
in for Python's decimal float formatting; it only appears in the
coefficient-prefix branch of `__str__`, which no settled claim evaluates. -/
def fracChars (f : Frac) : List Char :=
  if f.den ≠ 0 ∧ f.num % (f.den : Int) == 0 then intChars (f.num / (f.den : Int))
  else intChars f.num ++ '/' :: natChars f.den

/-- Rendering of a non-unit coefficient (`np.real_if_close(self.coeff)`
formatted by an f-string): real rendering when the imaginary part is zero. -/
def coeffChars (c : GRat) : List Char :=
  if Frac.eqb c.im Frac.zero then fracChars c.re
  else fracChars c.re ++ '+' :: (fracChars c.im ++ ['j'])

/-- One loop iteration of `PauliString.__str__` (`pauli_string.py` lines
52-58): `X(i)`, `Y(i)` or `Z(i)` by the first matching membership, nothing
for an identity position. -/
def pauliTermChars (p : PSData) (i : Nat) : List Char :=
  if i ∈ p.xs then 'X' :: '(' :: (natChars i ++ [')'])
  else if i ∈ p.ys then 'Y' :: '(' :: (natChars i ++ [')'])
  else if i ∈ p.zs then 'Z' :: '(' :: (natChars i ++ [')'])
  else []

/-- Embeds `PauliString.__str__` (`pauli_string.py` lines 46-59) as a
character list: an optional `"<coeff> * "` prefix when the coefficient is
numerically different from 1, then the qubit terms left to right. -/
def strPSChars (p : PSData) : List Char :=
  (if GRat.eqb p.coeff GRat.one then [] else coeffChars p.coeff ++ [' ', '*', ' ']) ++
    (List.range p.qubit_width).foldl (fun acc i => acc ++ pauliTermChars p i) []

/-- Embeds `PauliString.__str__` as a `String`. -/
def strPS (p : PSData) : String := String.mk (strPSChars p)

/-- The letter loop of `PauliString.from_string` (`pauli_string.py` lines
135-150): walk the (already upper-cased) characters with their indices,
collecting `xs`, `ys`, `zs`; any character other than `X`, `Y`, `Z`, `I`
raises `ValueError`. -/
def parseLettersGo : Nat → List Char → List Nat × List Nat × List Nat →
    Except PyErr (List Nat × List Nat × List Nat)
  | _, [], acc => Except.ok acc
  | i, c :: rest, (xs, ys, zs) =>
    if c = 'X' then parseLettersGo (i + 1) rest (xs ++ [i], ys, zs)
    else if c = 'Y' then parseLettersGo (i + 1) rest (xs, ys ++ [i], zs)
    else if c = 'Z' then parseLettersGo (i + 1) rest (xs, ys, zs ++ [i])
    else if c = 'I' then parseLettersGo (i + 1) rest (xs, ys, zs)
    else Except.error PyErr.valueError

def parseLetters (chars : List Char) : Except PyErr (List Nat × List Nat × List Nat) :=
  parseLettersGo 0 chars ([], [], [])

def digitVal (c : Char) : Option Nat :=
  if c.isDigit then some (c.toNat - 48) else none

/-- Nonempty all-digit literal. -/
def natLit (cs : List Char) : Option Nat :=
  match cs with
  | [] => none
  | _ => cs.foldlM (fun acc c => (digitVal c).map (fun d => acc * 10 + d)) 0

/-- Python `int(...)` on the coefficient substring (whitespace tolerance and
underscore separators are not modelled; no settled claim exercises the
coefficient prefix). -/
def intLit (cs : List Char) : Option Int :=
  match cs with
  | '-' :: rest => (natLit rest).map (fun n => -(n : Int))
  | '+' :: rest => (natLit rest).map (fun n => (n : Int))
  | _ => (natLit cs).map (fun n => (n : Int))

def floatBody (cs : List Char) : Option Frac :=
  match cs.splitOn '.' with
  | [a] => (natLit a).map (fun n => ⟨(n : Int), 1⟩)
  | [a, b] =>
    if a = [] && b = [] then none
    else do
      let ip ← if a = [] then some 0 else natLit a
      let fp ← if b = [] then some 0 else natLit b
      pure ⟨(ip * 10 ^ b.length + fp : Nat), 10 ^ b.length⟩
  | _ => none

/-- Python `float(...)` on the coefficient substring, exact on decimal
literals (scientific notation, `inf`/`nan` and float rounding are not
modelled; no settled claim exercises the coefficient prefix). -/
def floatLit (cs : List Char) : Option Frac :=
  match cs with
  | '-' :: rest => (floatBody rest).map Frac.neg
  | '+' :: rest => floatBody rest
  | _ => floatBody cs

/-- The coefficient cascade of `from_string` (`pauli_string.py` lines
121-130): try `int`, then `float`, then `complex`; if all fail raise
`ValueError`.  The `complex(...)` literal grammar is not modelled: a
substring rejected by the first two parses is mapped to the final
`ValueError` (no settled claim exercises the coefficient prefix). -/
def parseCoeff (cs : List Char) : Except PyErr GRat :=
  match intLit cs with
  | some z => Except.ok (GRat.ofInt z)
  | none =>
    match floatLit cs with
    | some f => Except.ok ⟨f, Frac.zero⟩
    | none => Except.error PyErr.valueError

/-- Embeds `PauliString.from_string` (`pauli_string.py` lines 110-152).  When
`"*"` occurs, `coeff_string, pauli_string = string.split("*")` succeeds only
for exactly two parts (otherwise the unpacking raises `ValueError`); the
letters are upper-cased, parsed one per qubit, and the result is built with
`ys` passed explicitly (so no constructor folding) and width equal to the
letter count. -/
def fromString (s : String) : Except PyErr PSData :=
  let chars := s.data
  if '*' ∈ chars then
    match chars.splitOn '*' with
    | [coeffStr, pauliStr] => do
      let coeff ← parseCoeff coeffStr
      let t ← parseLetters (pauliStr.map Char.toUpper)
      pure (psInitW t.1 t.2.2 (some t.2.1) coeff pauliStr.length)
    | _ => Except.error PyErr.valueError
  else do
    let t ← parseLetters (chars.map Char.toUpper)
    pure (psInitW t.1 t.2.2 (some t.2.1) GRat.one chars.length)

/-! Concrete instances used by the settled claims (object ids are arbitrary
distinct naturals standing for distinct Python objects). -/

/-- The string produced by `PauliString.from_string("I")`. -/
def iStr : PSData := ⟨[], [], [], GRat.one, 1⟩

/-- The string produced by `PauliString.from_string("X")` (or `"x"`). -/
def xStr : PSData := ⟨[0], [], [], GRat.one, 1⟩

/-- The string produced by `PauliString.from_string("Y")`. -/
def yStr : PSData := ⟨[], [], [0], GRat.one, 1⟩

/-- The string produced by `PauliString.from_string("Z")`. -/
def zStr : PSData := ⟨[], [0], [], GRat.one, 1⟩

def half : GRat := ⟨⟨1, 2⟩, Frac.zero⟩

def negHalf : GRat := ⟨⟨-1, 2⟩, Frac.zero⟩

/-- The demonstration input `dm = PauliOperator({I: 0.5, Z: -0.5})` of
`kraus_operation.py` lines 62-65. -/
def dmOp : POData := ⟨[(⟨12, iStr⟩, half), (⟨13, zStr⟩, negHalf)], 1⟩

/-- The four single-qubit Pauli basis strings, indexed I, X, Y, Z. -/
def singleQubitPauli (k : Nat) : PSData :=
  match k with
  | 0 => iStr
  | 1 => xStr
  | 2 => yStr
  | _ => zStr

/-- The standard single-qubit Pauli multiplication table (the expected values
named by the claim): `X·Y = iZ`, `Y·Z = iX`, `Z·X = iY`, reversed products
negate the phase, identities and squares have phase `1`. -/
def pauliProductTable (i j : Nat) : PSData :=
  match i, j with
  | 0, j2 => singleQubitPauli j2
  | i2, 0 => singleQubitPauli i2
  | 1, 1 => iStr
  | 2, 2 => iStr
  | 3, 3 => iStr
  | 1, 2 => ⟨[], [0], [], GRat.iUnit, 1⟩
  | 2, 1 => ⟨[], [0], [], GRat.neg GRat.iUnit, 1⟩
  | 2, 3 => ⟨[0], [], [], GRat.iUnit, 1⟩
  | 3, 2 => ⟨[0], [], [], GRat.neg GRat.iUnit, 1⟩
  | 3, 1 => ⟨[], [], [0], GRat.iUnit, 1⟩
  | 1, 3 => ⟨[], [], [0], GRat.neg GRat.iUnit, 1⟩
  | _, _ => iStr

/-- A constructible `PauliString` whose index data exceeds its width
(`PauliString((2,), (), qubit_width=1)`; the constructor accepts it). -/
def badStr : PSData := ⟨[2], [], [], GRat.one, 1⟩

/-- `PauliOperator({badStr: 1})`, accepted by the operator constructor. -/
def badOp : POData := ⟨[(⟨0, badStr⟩, GRat.one)], 1⟩

/-- A second operator over a structurally equal but distinct key object. -/
def badOp2 : POData := ⟨[(⟨1, badStr⟩, GRat.one)], 1⟩

/-- The string produced by `PauliString((5,), (), qubit_width=2)`. -/
def wideStr : PSData := ⟨[5], [], [], GRat.one, 2⟩

/-- A width-2 identity-string operator (for the width-mismatch instance). -/
def iStr2 : PSData := ⟨[], [], [], GRat.one, 2⟩

def opW1 : POData := ⟨[(⟨20, iStr⟩, GRat.one)], 1⟩

def opW2 : POData := ⟨[(⟨21, iStr2⟩, GRat.one)], 2⟩

/-- Operand of the C5 instance: `PauliOperator({Z: 0.5})`. -/
def c5A : POData := ⟨[(⟨0, zStr⟩, half)], 1⟩

/-- Second C5 operand: same structural key content, distinct key object. -/
def c5B : POData := ⟨[(⟨5, zStr⟩, half)], 1⟩

/-- Operand of the C6 instance: `PauliOperator({Z: 1})`, no identity key. -/
def c6P : POData := ⟨[(⟨0, zStr⟩, GRat.one)], 1⟩

/-- The body of `__str__` as a flat list: the concatenation of the per-qubit
terms (used to reason about the `res += ...` loop). -/
def strBodyChars (p : PSData) : List Char :=
  ((List.range p.qubit_width).map (pauliTermChars p)).flatten

def digitList : List Char := ['0', '1', '2', '3', '4', '5', '6', '7', '8', '9']

/-! Helper lemmas shared by the claim theorems. -/

theorem exceptBindOk {ε α β : Type} (a : α) (f : α → Except ε β) :
    (Except.ok a >>= f) = f a := rfl

theorem exceptBindErr {ε α β : Type} (e : ε) (f : α → Except ε β) :
    ((Except.error e : Except ε α) >>= f) = Except.error e := rfl

theorem toggleAll_ok : ∀ (idxs : List Nat) (l : List Nat),
    (∀ i ∈ idxs, i < l.length) →
    ∃ r, toggleAll l idxs = Except.ok r ∧ r.length = l.length := by
  intro idxs
  induction idxs with
  | nil => intro l _; exact ⟨l, rfl, rfl⟩
  | cons i is ih =>
    intro l h
    have hi : i < l.length := h i (List.mem_cons_self i is)
    have hstep : toggleAt l i = Except.ok (l.set i ((l.get ⟨i, hi⟩) ^^^ 1)) := by
      unfold toggleAt; rw [dif_pos hi]
    obtain ⟨r, hr, hlen⟩ := ih (l.set i ((l.get ⟨i, hi⟩) ^^^ 1))
      (by intro j hj; rw [List.length_set]; exact h j (List.mem_cons_of_mem i hj))
    refine ⟨r, ?_, by rw [hlen, List.length_set]⟩
    unfold toggleAll at *
    rw [List.foldlM_cons, hstep, exceptBindOk]
    exact hr

theorem makeStabilizer_ok (p : PSData) (n : Nat)
    (hx : ∀ i ∈ p.xs, i < n) (hy : ∀ i ∈ p.ys, i < n) (hz : ∀ i ∈ p.zs, i < n) :
    ∃ s, makeStabilizer p n = Except.ok s ∧ s.length = n + n := by
  obtain ⟨x1, hx1, hlx1⟩ := toggleAll_ok p.xs (List.replicate n 0)
    (by rw [List.length_replicate]; exact hx)
  obtain ⟨z1, hz1, hlz1⟩ := toggleAll_ok p.zs (List.replicate n 0)
    (by rw [List.length_replicate]; exact hz)
  obtain ⟨x2, hx2, hlx2⟩ := toggleAll_ok p.ys x1
    (by rw [hlx1, List.length_replicate]; exact hy)
  obtain ⟨z2, hz2, hlz2⟩ := toggleAll_ok p.ys z1
    (by rw [hlz1, List.length_replicate]; exact hy)
  refine ⟨z2 ++ x2, ?_, ?_⟩
  · unfold makeStabilizer
    rw [hx1, exceptBindOk, hz1, exceptBindOk, hx2, exceptBindOk, hz2, exceptBindOk]
    rfl
  · rw [List.length_append, hlz2, hlz1, hlx2, hlx1, List.length_replicate]

theorem stabilizerAt_ok (p : PSData) (n : Nat) (hw : p.qubit_width ≤ n)
    (hx : ∀ i ∈ p.xs, i < n) (hy : ∀ i ∈ p.ys, i < n) (hz : ∀ i ∈ p.zs, i < n) :
    ∃ s, stabilizerAt p n false = Except.ok s ∧ s.length = n + n := by
  obtain ⟨s, hs, hlen⟩ := makeStabilizer_ok p n hx hy hz
  refine ⟨s, ?_, hlen⟩
  unfold stabilizerAt
  rw [if_neg (Nat.not_lt.2 hw), hs, exceptBindOk]
  rfl

theorem psMul_ok (a b : PSData) (ha : a.wf) (hb : b.wf) :
    ∃ r, psMul a b = Except.ok r := by
  obtain ⟨hax, hay, haz⟩ := ha
  obtain ⟨hbx, hby, hbz⟩ := hb
  have hwa : a.qubit_width ≤ max a.qubit_width b.qubit_width := Nat.le_max_left _ _
  have hwb : b.qubit_width ≤ max a.qubit_width b.qubit_width := Nat.le_max_right _ _
  obtain ⟨s1, hs1, hl1⟩ := stabilizerAt_ok a (max a.qubit_width b.qubit_width) hwa
    (fun i hi => Nat.lt_of_lt_of_le (hax i hi) hwa)
    (fun i hi => Nat.lt_of_lt_of_le (hay i hi) hwa)
    (fun i hi => Nat.lt_of_lt_of_le (haz i hi) hwa)
  obtain ⟨s2, hs2, hl2⟩ := stabilizerAt_ok b (max a.qubit_width b.qubit_width) hwb
    (fun i hi => Nat.lt_of_lt_of_le (hbx i hi) hwb)
    (fun i hi => Nat.lt_of_lt_of_le (hby i hi) hwb)
    (fun i hi => Nat.lt_of_lt_of_le (hbz i hi) hwb)
  have hcond : ¬((List.zipWith (fun u v => u ^^^ v) s1 s2).length % 2 ≠ 0) := by
    rw [List.length_zipWith, hl1, hl2]
    omega
  simp only [psMul, hs1, hs2, exceptBindOk]
  unfold fromStabilizer
  rw [if_neg hcond]
  exact ⟨_, rfl⟩

theorem opMulOp_raises (A B : POData) (hA : A.pairs ≠ []) (hB : B.pairs ≠ [])
    (hwa : ∀ kv ∈ A.pairs, kv.1.data.wf) (hwb : ∀ kv ∈ B.pairs, kv.1.data.wf) :
    opMulOp A B = Except.error PyErr.attributeError := by
  obtain ⟨a, as, hAe⟩ := List.exists_cons_of_ne_nil hA
  obtain ⟨b, bs, hBe⟩ := List.exists_cons_of_ne_nil hB
  obtain ⟨r, hr⟩ := psMul_ok a.1.data b.1.data
    (hwa a (by rw [hAe]; exact List.mem_cons_self a as))
    (hwb b (by rw [hBe]; exact List.mem_cons_self b bs))
  unfold opMulOp
  rw [hAe, hBe, List.foldlM_cons, List.foldlM_cons]
  simp only [hr, psNormalized, exceptBindOk, exceptBindErr]

/-! Claim theorems. -/

/-- Sanity: `from_string` produces exactly the concrete single-qubit strings
used in the claim instances. -/
theorem fromString_single_letters :
    fromString "I" = Except.ok iStr ∧ fromString "X" = Except.ok xStr ∧
    fromString "Y" = Except.ok yStr ∧ fromString "Z" = Except.ok zStr := by decide

/-- C1: Applying the bit-flip channel `KrausOperation([sqrt(1-p)*I, sqrt(p)*X])`
to `PauliOperator({I: 0.5, Z: -0.5})` does not return
`PauliOperator({I: 0.5, Z: -0.4})`: the very first operator product inside
`KrausOperation.__call__` accesses the undefined attribute
`PauliString.normalized` and raises `AttributeError`, for any Kraus
coefficients `a`, `b` (in particular `sqrt(0.9)`, `sqrt(0.1)`). -/
theorem c1_bitflip_application_raises :
    ∀ (ren : Nat → Nat) (freshOid : Nat) (a b : GRat),
      (do
        let K1 ← mkPauliOperator [(⟨10, iStr⟩, a)]
        let K2 ← mkPauliOperator [(⟨11, xStr⟩, b)]
        let dm ← mkPauliOperator dmOp.pairs
        let K ← mkKrausOperation [K1, K2]
        koCall ren freshOid K (CallInput.po dm)) = Except.error PyErr.attributeError := by
  intro ren freshOid a b
  with_unfolding_all rfl

/-- C2: `PauliString.__mul__` reproduces the single-qubit Pauli multiplication
table with exact phases (`X*Y = iZ`, `Y*Z = iX`, `Z*X = iY`, reversed products
negated, identities and squares with phase 1), generator and coefficient both,
for all 16 single-qubit pairs. -/
theorem c2_single_qubit_table :
    ∀ i j : Fin 4, psMul (singleQubitPauli i.val) (singleQubitPauli j.val) =
      Except.ok (pauliProductTable i.val j.val) := by decide

/-- C3: the polarity of `PauliString.commutes` is inverted: on the
anticommuting pair `X(0)`, `Z(0)` the symplectic product is 1 yet `commutes`
returns `True`, and on the commuting pair `X(0)`, `X(0)` the symplectic
product is 0 yet `commutes` returns `False` — the claim (and the method's
docstring) require `true` exactly when the product is 0. -/
theorem c3_commutes_polarity_flipped :
    symplecticProduct xStr zStr = Except.ok 1 ∧ commutes xStr zStr = Except.ok true ∧
    symplecticProduct xStr xStr = Except.ok 0 ∧ commutes xStr xStr = Except.ok false := by
  decide

/-- C4 (counterexample): the claim is not true for *every* pair of
`PauliOperator`s with non-empty key maps: `badOp` and `badOp2` are accepted by
the `PauliOperator` constructor, but their keys reference qubit index 2 at
width 1, so the stabilizer computation inside `PauliString.__mul__` raises
`IndexError` before the `normalized` access is ever reached — the raised
exception is not an `AttributeError`. -/
theorem c4_counterexample :
    mkPauliOperator badOp.pairs = Except.ok badOp ∧
    mkPauliOperator badOp2.pairs = Except.ok badOp2 ∧
    opMulOp badOp badOp2 = Except.error PyErr.indexError ∧
    opMulOp badOp badOp2 ≠ Except.error PyErr.attributeError := by decide

/-- C4 (amended): for every two `PauliOperator`s with non-empty key maps whose
keys reference only indices below their widths, the product raises
`AttributeError` (the `normalized` access) before producing any result. -/
theorem c4_mul_raises_attribute_error (A B : POData)
    (hA : A.pairs ≠ []) (hB : B.pairs ≠ [])
    (hwa : ∀ kv ∈ A.pairs, kv.1.data.wf) (hwb : ∀ kv ∈ B.pairs, kv.1.data.wf) :
    opMulOp A B = Except.error PyErr.attributeError :=
  opMulOp_raises A B hA hB hwa hwb

/-- C4 witness: the hypotheses hold at the demonstration operator `dmOp` and
the conclusion follows by the amended theorem. -/
theorem c4_witness :
    dmOp.pairs ≠ [] ∧ (∀ kv ∈ dmOp.pairs, kv.1.data.wf) ∧
    opMulOp dmOp dmOp = Except.error PyErr.attributeError :=
  ⟨by decide, by decide,
    c4_mul_raises_attribute_error dmOp dmOp (by decide) (by decide) (by decide) (by decide)⟩

/-- C5: `PauliString` defines neither `__eq__` nor `__hash__`, so operator
keys compare by object identity: adding `PauliOperator({Z: 0.5})` to a second
operator whose key is a structurally equal but distinct `PauliString` object
yields two separate map entries with equal key data (coefficients 0.5 and
0.5), not one merged key with coefficient 1.0. -/
theorem c5_keys_compare_by_object_identity :
    opAdd (fun o => o + 100) 999 c5A (Operand.opv c5B) =
      Except.ok ⟨[(⟨100, zStr⟩, half), (⟨5, zStr⟩, half)], 1⟩ := by decide

/-- C6: adding a scalar to a `PauliOperator` never adds it to the identity
coefficient: the freshly built `identity_string` compares by object identity
and is therefore absent from the keys, so the `else` branch of
`PauliOperator.__add__` executes the subscript lookup
`new_string_coeff_pairs[identity_string]`, which raises `KeyError` — both for
`PauliOperator({Z: 1}) + 2` (no identity key at all) and for
`PauliOperator({I: 0.5, Z: -0.5}) + 2` (a structurally identity key held by a
different object). -/
theorem c6_scalar_add_raises_key_error :
    opAdd (fun o => o + 100) 999 c6P (Operand.sc (GRat.ofInt 2)) =
      Except.error PyErr.keyError ∧
    opAdd (fun o => o + 100) 999 dmOp (Operand.sc (GRat.ofInt 2)) =
      Except.error PyErr.keyError := by decide

/-- C7 (counterexample): `KrausOperation.__init__` performs no validation: the
empty operator list is accepted and produces an instance. -/
theorem c7_counterexample : mkKrausOperation [] = Except.ok ⟨[], []⟩ := by decide

/-- C7 (amended): `KrausOperation` construction never validates: both the
empty list and a width-mismatched generator list are accepted and produce
usable instances. -/
theorem c7_no_construction_validation :
    mkKrausOperation [] = Except.ok ⟨[], []⟩ ∧
    mkKrausOperation [opW1, opW2] = Except.ok ⟨[opW1, opW2], [opW1, opW2]⟩ := by decide

/-- C8 (counterexample): `PauliString((5,), (), qubit_width=2)` has an
explicit width smaller than the highest referenced index yet the constructor
accepts it and returns an instance — there is no validation error at
construction time. -/
theorem c8_counterexample :
    mkPauliString [5] [] none GRat.one (some 2) = Except.ok wideStr := by decide

/-- C8 (amended): construction with an explicit width smaller than the
highest referenced index succeeds (the constructor validates nothing); the
invalid width only surfaces later, e.g. the stabilizer computation at the
string's own width raises `IndexError`. -/
theorem c8_no_width_validation :
    mkPauliString [5] [] none GRat.one (some 2) = Except.ok wideStr ∧
    makeStabilizer wideStr 2 = Except.error PyErr.indexError := by decide

/-- C10: a `KrausOperation` built from an empty operator list accepts the
construction, and applying it to any `PauliOperator` returns the `int` `0`
(the accumulation loop never runs), not a `PauliOperator`. -/
theorem c10_empty_channel_returns_int_zero :
    ∀ (ren : Nat → Nat) (freshOid : Nat) (ρ : POData),
      (mkKrausOperation []).bind (fun K => koCall ren freshOid K (CallInput.po ρ)) =
        Except.ok (PyVal.int 0) := by
  intro ren freshOid ρ
  with_unfolding_all rfl

/-! Lemmas for the `__str__` / `from_string` round-trip claim. -/

theorem foldl_append_flatten (f : Nat → List Char) :
    ∀ (l : List Nat) (acc : List Char),
      l.foldl (fun a i => a ++ f i) acc = acc ++ (l.map f).flatten := by
  intro l
  induction l with
  | nil => intro acc; simp
  | cons i is ih => intro acc; simp [ih]

theorem parseLettersGo_error :
    ∀ (chars : List Char) (i : Nat) (acc : List Nat × List Nat × List Nat),
      (∃ c ∈ chars, c ≠ 'X' ∧ c ≠ 'Y' ∧ c ≠ 'Z' ∧ c ≠ 'I') →
      parseLettersGo i chars acc = Except.error PyErr.valueError := by
  intro chars
  induction chars with
  | nil =>
    intro i acc h
    obtain ⟨c, hc, _⟩ := h
    cases hc
  | cons c rest ih =>
    intro i acc h
    obtain ⟨acc1, acc2, acc3⟩ := acc
    have hrest : c = 'X' ∨ c = 'Y' ∨ c = 'Z' ∨ c = 'I' →
        ∃ c2 ∈ rest, c2 ≠ 'X' ∧ c2 ≠ 'Y' ∧ c2 ≠ 'Z' ∧ c2 ≠ 'I' := by
      intro hcv
      obtain ⟨c2, hc2, hprop⟩ := h
      rcases List.mem_cons.1 hc2 with h1 | h2
      · subst h1
        rcases hcv with h1 | h1 | h1 | h1
        · exact absurd h1 hprop.1
        · exact absurd h1 hprop.2.1
        · exact absurd h1 hprop.2.2.1
        · exact absurd h1 hprop.2.2.2
      · exact ⟨c2, h2, hprop⟩
    by_cases hX : c = 'X'
    · unfold parseLettersGo
      rw [if_pos hX]
      exact ih (i + 1) _ (hrest (Or.inl hX))
    · by_cases hY : c = 'Y'
      · unfold parseLettersGo
        rw [if_neg hX, if_pos hY]
        exact ih (i + 1) _ (hrest (Or.inr (Or.inl hY)))
      · by_cases hZ : c = 'Z'
        · unfold parseLettersGo
          rw [if_neg hX, if_neg hY, if_pos hZ]
          exact ih (i + 1) _ (hrest (Or.inr (Or.inr (Or.inl hZ))))
        · by_cases hI : c = 'I'
          · unfold parseLettersGo
            rw [if_neg hX, if_neg hY, if_neg hZ, if_pos hI]
            exact ih (i + 1) _ (hrest (Or.inr (Or.inr (Or.inr hI))))
          · unfold parseLettersGo
            rw [if_neg hX, if_neg hY, if_neg hZ, if_neg hI]

theorem digitChar_mem (d : Nat) : digitChar d ∈ digitList := by
  unfold digitChar digitList
  rcases Nat.lt_or_ge d 10 with h | h
  · interval_cases d <;> decide
  · rw [List.getD_eq_default _ _ (by simpa using h)]
    decide

theorem natCharsCore_digits :
    ∀ (fuel n : Nat) (acc : List Char), (∀ c ∈ acc, c ∈ digitList) →
      ∀ c ∈ natCharsCore fuel n acc, c ∈ digitList := by
  intro fuel
  induction fuel with
  | zero => intro n acc hacc c hc; exact hacc c hc
  | succ f ih =>
    intro n acc hacc c hc
    unfold natCharsCore at hc
    by_cases h : n < 10
    · rw [if_pos h] at hc
      rcases List.mem_cons.1 hc with h1 | h2
      · rw [h1]; exact digitChar_mem n
      · exact hacc c h2
    · rw [if_neg h] at hc
      refine ih (n / 10) _ ?_ c hc
      intro c2 hc2
      rcases List.mem_cons.1 hc2 with h1 | h2
      · rw [h1]; exact digitChar_mem _
      · exact hacc c2 h2

theorem natChars_digits (n : Nat) : ∀ c ∈ natChars n, c ∈ digitList :=
  natCharsCore_digits (n + 1) n [] (by intro c hc; cases hc)

theorem pauliTermChars_cases (p : PSData) (i : Nat) :
    ∀ c ∈ pauliTermChars p i, c ∈ ['X', 'Y', 'Z', '(', ')'] ∨ c ∈ digitList := by
  intro c hc
  unfold pauliTermChars at hc
  split_ifs at hc <;>
    [skip; skip; skip; exact absurd hc (List.not_mem_nil c)] <;>
  · simp only [List.mem_cons, List.mem_append, List.not_mem_nil, or_false] at hc
    rcases hc with rfl | rfl | hd | rfl
    · decide
    · decide
    · exact Or.inr (natChars_digits i c hd)
    · decide

theorem paren_mem_pauliTerm (p : PSData) (i : Nat)
    (h : i ∈ p.xs ∨ i ∈ p.ys ∨ i ∈ p.zs) : '(' ∈ pauliTermChars p i := by
  unfold pauliTermChars
  by_cases h1 : i ∈ p.xs
  · rw [if_pos h1]
    exact List.mem_cons_of_mem _ (List.mem_cons_self _ _)
  · by_cases h2 : i ∈ p.ys
    · rw [if_neg h1, if_pos h2]
      exact List.mem_cons_of_mem _ (List.mem_cons_self _ _)
    · have h3 : i ∈ p.zs := by tauto
      rw [if_neg h1, if_neg h2, if_pos h3]
      exact List.mem_cons_of_mem _ (List.mem_cons_self _ _)

theorem strPSChars_no_coeff (p : PSData) (hc : GRat.eqb p.coeff GRat.one = true) :
    strPSChars p = strBodyChars p := by
  unfold strPSChars strBodyChars
  simp only [hc, if_true]
  rw [foldl_append_flatten]
  simp

theorem star_not_mem_body (p : PSData) : '*' ∉ strBodyChars p := by
  intro hmem
  unfold strBodyChars at hmem
  obtain ⟨t, ht, hct⟩ := List.mem_flatten.1 hmem
  obtain ⟨j, hj, rfl⟩ := List.mem_map.1 ht
  rcases pauliTermChars_cases p j '*' hct with h | h <;> exact absurd h (by decide)

/-- Defining equation of `fromString` on an explicit character list. -/
theorem fromString_mk (l : List Char) :
    fromString (String.mk l) =
      (if '*' ∈ l then
        match l.splitOn '*' with
        | [coeffStr, pauliStr] => do
          let coeff ← parseCoeff coeffStr
          let t ← parseLetters (pauliStr.map Char.toUpper)
          pure (psInitW t.1 t.2.2 (some t.2.1) coeff pauliStr.length)
        | _ => Except.error PyErr.valueError
      else do
        let t ← parseLetters (l.map Char.toUpper)
        pure (psInitW t.1 t.2.2 (some t.2.1) GRat.one l.length)) := rfl

/-- C9 (counterexample): for `p = from_string("X")` — a string built from a
pure letter sequence with no coefficient prefix — `str(p)` is `"X(0)"`, and
`from_string(str(p))` raises `ValueError` instead of reconstructing `p`. -/
theorem c9_counterexample :
    fromString "X" = Except.ok xStr ∧ strPS xStr = "X(0)" ∧
    fromString (strPS xStr) = Except.error PyErr.valueError := by decide

/-- C9 (amended): `__str__` renders every non-identity qubit as an indexed
term such as `X(0)`, which `from_string` cannot parse: for every string with
unit coefficient (no coefficient prefix) and at least one non-identity qubit
below its width, `from_string(str(p))` raises `ValueError`; the round trip
never reconstructs such a `p`. -/
theorem c9_roundtrip_fails (p : PSData)
    (hc : GRat.eqb p.coeff GRat.one = true)
    (hi : ∃ i, i < p.qubit_width ∧ (i ∈ p.xs ∨ i ∈ p.ys ∨ i ∈ p.zs)) :
    fromString (strPS p) = Except.error PyErr.valueError := by
  obtain ⟨i, hiw, him⟩ := hi
  have hbody : strPSChars p = strBodyChars p := strPSChars_no_coeff p hc
  have hparen : '(' ∈ strPSChars p := by
    rw [hbody]
    exact List.mem_flatten.2 ⟨pauliTermChars p i,
      List.mem_map_of_mem _ (List.mem_range.2 hiw), paren_mem_pauliTerm p i him⟩
  have hstar : '*' ∉ strPSChars p := by
    rw [hbody]; exact star_not_mem_body p
  have hup : parseLetters (List.map Char.toUpper (strPSChars p)) =
      Except.error PyErr.valueError := by
    unfold parseLetters
    exact parseLettersGo_error _ 0 _
      ⟨Char.toUpper '(', List.mem_map_of_mem _ hparen, by decide, by decide, by decide, by decide⟩
  rw [show strPS p = String.mk (strPSChars p) from rfl, fromString_mk, if_neg hstar, hup,
    exceptBindErr]

/-- C9 witness: the hypotheses of the amended round-trip theorem hold at the
concrete string `xStr` built from the letter sequence `"X"`. -/
theorem c9_witness :
    GRat.eqb xStr.coeff GRat.one = true ∧
    (∃ i, i < xStr.qubit_width ∧ (i ∈ xStr.xs ∨ i ∈ xStr.ys ∨ i ∈ xStr.zs)) ∧
    fromString (strPS xStr) = Except.error PyErr.valueError :=
  ⟨by decide, ⟨0, by decide, Or.inl (by decide)⟩,
    c9_roundtrip_fails xStr (by decide) ⟨0, by decide, Or.inl (by decide)⟩⟩
